import Mathlib

/-!
Verification of the distance-calibrated node2vec embedding engine
(`modified_node2vec.py` and the dot-product heuristic of
`testing_functions.py`), via a shallow embedding of its sampling,
loss, scheduling and inference functions.
-/

namespace ANEDA

/-- One tile-repeat of a 1-D tensor, as in `batch.repeat(n)`:
the whole list is concatenated `n` times. -/
def repeatT (xs : List α) (n : Nat) : List α :=
  (List.range n).flatMap (fun _ => xs)

/-- The `Tensor.unfold(1, w, 1)` step on each row: the rolling window of size `w`,
stride 1, over a list; window `i` is `(xs.drop i).take w`. -/
def unfoldWin (xs : List α) (w : Nat) : List (List α) :=
  (List.range (xs.length + 1 - w)).map (fun i => (xs.drop i).take w)

theorem length_repeatT (xs : List α) (n : Nat) :
    (repeatT xs n).length = n * xs.length := by
  induction n with
  | zero => simp [repeatT]
  | succ k ih =>
      have h : repeatT xs (k + 1) = repeatT xs k ++ xs := by
        simp [repeatT, List.range_succ]
      rw [h, List.length_append, ih, Nat.succ_mul]

theorem mem_repeatT {xs : List α} {n : Nat} {a : α}
    (h : a ∈ repeatT xs n) : a ∈ xs := by
  simp [repeatT] at h
  exact h.2

theorem length_unfoldWin (xs : List α) (w : Nat) :
    (unfoldWin xs w).length = xs.length + 1 - w := by
  simp [unfoldWin]

theorem mem_unfoldWin {xs : List α} {w : Nat} {win : List α}
    (h : win ∈ unfoldWin xs w) :
    ∃ i, i < xs.length + 1 - w ∧ win = (xs.drop i).take w := by
  simp [unfoldWin] at h
  obtain ⟨i, hi, hw⟩ := h
  exact ⟨i, hi, hw.symm⟩

theorem mem_of_mem_unfoldWin {xs : List α} {w : Nat} {win : List α}
    {a : α} (hwin : win ∈ unfoldWin xs w) (ha : a ∈ win) : a ∈ xs := by
  obtain ⟨i, _, hw⟩ := mem_unfoldWin hwin
  subst hw
  exact List.mem_of_mem_drop (List.mem_of_mem_take ha)

/-- Shallow embedding of `Node2vec.sample` (modified_node2vec.py lines 83-115), with the
randomness reified as inputs: `walks` is the list of node traces returned by
`node2vec_random_walk` on `repeatT batch num_walks` (each trace has
`walk_length + 1` nodes), `lens` is the per-walk list of traversed edge
lengths read off `g.edata` (each of size `walk_length`), and `negRand` is
the `torch.randint(N, (len(batch)*num_walks*num_negatives, walk_length))`
matrix.  Positive traces and distances are rolled with windows of size
`window_size` and `window_size - 1`; negative rows prepend each repeated
start id to its random row and are rolled like the positives. -/
def sample (num_walks num_negatives window_size : Nat) (batch : List Int)
    (walks : List (List Int)) (lens : List (List β))
    (negRand : List (List Int)) :
    List (List Int) × List (List β) × List (List Int) :=
  let posTraces := walks.flatMap (fun t => unfoldWin t window_size)
  let posDists := lens.flatMap (fun d => unfoldWin d (window_size - 1))
  let negBatch := repeatT (repeatT batch num_walks) num_negatives
  let negRows := List.zipWith (fun s r => s :: r) negBatch negRand
  let negTraces := negRows.flatMap (fun t => unfoldWin t window_size)
  (posTraces, posDists, negTraces)

theorem length_flatMap_const {xs : List α} {f : α → List γ} {k : Nat}
    (h : ∀ x ∈ xs, (f x).length = k) :
    (xs.flatMap f).length = xs.length * k := by
  induction xs with
  | nil => simp
  | cons a as ih =>
      simp only [List.flatMap_cons, List.length_append, List.length_cons]
      rw [h a (List.mem_cons_self a as),
        ih (fun x hx => h x (List.mem_cons_of_mem a hx)), Nat.succ_mul,
        Nat.add_comm]

theorem mem_zipWith_cons {negBatch : List Int} {negRand : List (List Int)}
    {row : List Int}
    (h : row ∈ List.zipWith (fun s r => s :: r) negBatch negRand) :
    ∃ s r, s ∈ negBatch ∧ r ∈ negRand ∧ row = s :: r := by
  induction negBatch generalizing negRand with
  | nil => simp at h
  | cons b bs ih =>
      cases negRand with
      | nil => simp at h
      | cons r rs =>
          simp only [List.zipWith_cons_cons, List.mem_cons] at h
          rcases h with h | h
          · exact ⟨b, r, List.mem_cons_self _ _, List.mem_cons_self _ _, h⟩
          · obtain ⟨s, r', hs, hr, hrow⟩ := ih h
            exact ⟨s, r', List.mem_cons_of_mem _ hs,
              List.mem_cons_of_mem _ hr, hrow⟩

/-- C7: windowing invariant of `Node2vec.sample`: rolling a window of size
`W ≤ L` over a node sequence of length `L` (the `unfold(1, W, 1)` step on
each walk row) produces exactly `L - W + 1` windows, each of size `W` and
each a contiguous sub-sequence of the original walk in original order. -/
theorem C7_windowing (w : Nat) (xs : List Int) (h : w ≤ xs.length) :
    (unfoldWin xs w).length = xs.length - w + 1 ∧
      ∀ win ∈ unfoldWin xs w,
        win.length = w ∧ ∃ s t, xs = s ++ (win ++ t) := by
  constructor
  · rw [length_unfoldWin]
    omega
  · intro win hwin
    obtain ⟨i, hi, hw⟩ := mem_unfoldWin hwin
    subst hw
    constructor
    · rw [List.length_take, List.length_drop]
      omega
    · refine ⟨xs.take i, (xs.drop i).drop w, ?_⟩
      rw [List.take_append_drop w (xs.drop i), List.take_append_drop i xs]

theorem C7_windowing_witness :
    2 ≤ ([0, 1, 2, 3] : List Int).length ∧
      (unfoldWin ([0, 1, 2, 3] : List Int) 2).length =
        ([0, 1, 2, 3] : List Int).length - 2 + 1 :=
  ⟨by decide, (C7_windowing 2 [0, 1, 2, 3] (by decide)).1⟩

/-- C5 counterexample: with `num_walks = 1`, `num_negatives = 2`,
`walk_length = 2`, `window_size = 2` and a single-start batch, `sample`
returns 4 negative windows but only 2 positive windows, so the number of
negative windows does not equal the number of positive windows. -/
theorem C5_counterexample :
    (sample 1 2 2 [0] [[0, 1, 2]] [[(1 : Int), 1]]
        [[0, 0], [1, 1]]).2.2.length = 4 ∧
      (sample 1 2 2 [0] [[0, 1, 2]] [[(1 : Int), 1]]
          [[0, 0], [1, 1]]).1.length = 2 ∧
      (4 : Nat) ≠ 2 := by
  refine ⟨rfl, rfl, by decide⟩

/-- C5 (amended): negative traces are built by prepending each repeated
start id to `walk_length` random ids and rolling the same window as the
positives; the number of negative windows equals `num_negatives` times the
number of positive windows (not the same number, unless
`num_negatives = 1`). -/
theorem C5_neg_window_count (num_walks num_negatives W L : Nat)
    (batch : List Int) (walks : List (List Int)) (lens : List (List Int))
    (negRand : List (List Int))
    (hwl : walks.length = num_walks * batch.length)
    (hwalk : ∀ t ∈ walks, t.length = L + 1)
    (hnr : negRand.length = num_negatives * (num_walks * batch.length))
    (hrow : ∀ r ∈ negRand, r.length = L) :
    (sample num_walks num_negatives W batch walks lens negRand).2.2.length =
      num_negatives *
        (sample num_walks num_negatives W batch walks lens negRand).1.length := by
  simp only [sample]
  have hpos : (walks.flatMap (fun t => unfoldWin t W)).length =
      walks.length * (L + 1 + 1 - W) := by
    refine length_flatMap_const (fun t ht => ?_)
    rw [length_unfoldWin, hwalk t ht]
  have hnb : (repeatT (repeatT batch num_walks) num_negatives).length =
      num_negatives * (num_walks * batch.length) := by
    rw [length_repeatT, length_repeatT]
  have hneg : (List.zipWith (fun s r => s :: r)
      (repeatT (repeatT batch num_walks) num_negatives) negRand).length =
      num_negatives * (num_walks * batch.length) := by
    rw [List.length_zipWith, hnb, hnr, Nat.min_self]
  have hrows : ∀ row ∈ List.zipWith (fun s r => s :: r)
      (repeatT (repeatT batch num_walks) num_negatives) negRand,
      (unfoldWin row W).length = L + 1 + 1 - W := by
    intro row hmem
    obtain ⟨s, r, _, hr, hrw⟩ := mem_zipWith_cons hmem
    rw [length_unfoldWin, hrw, List.length_cons, hrow r hr]
  rw [length_flatMap_const hrows, hneg, hpos, hwl, Nat.mul_assoc]

theorem C5_neg_window_count_witness :
    ([[0, 1, 2]] : List (List Int)).length = 1 * ([0] : List Int).length ∧
      (∀ t ∈ ([[0, 1, 2]] : List (List Int)), t.length = 2 + 1) ∧
      ([[0, 0], [1, 1]] : List (List Int)).length =
        2 * (1 * ([0] : List Int).length) ∧
      (∀ r ∈ ([[0, 0], [1, 1]] : List (List Int)), r.length = 2) ∧
      (sample 1 2 2 [0] [[0, 1, 2]] [[(1 : Int), 1]]
          [[0, 0], [1, 1]]).2.2.length =
        2 * (sample 1 2 2 [0] [[0, 1, 2]] [[(1 : Int), 1]]
            [[0, 0], [1, 1]]).1.length :=
  ⟨by decide, by decide, by decide, by decide,
    C5_neg_window_count 1 2 2 2 [0] [[0, 1, 2]] [[(1 : Int), 1]]
      [[0, 0], [1, 1]] (by decide) (by decide) (by decide) (by decide)⟩

/-- C10: every id in a negative trace returned by `sample` is a real node
id in `{0, ..., N-1}`: start ids come from the batch and the rest from
`torch.randint(N, ...)`, so the reserved padding id `N` never occurs in a
negative trace. -/
theorem C10_neg_ids_in_range (N : Int) (num_walks num_negatives W : Nat)
    (batch : List Int) (walks : List (List Int)) (lens : List (List Int))
    (negRand : List (List Int))
    (hb : ∀ b ∈ batch, 0 ≤ b ∧ b < N)
    (hr : ∀ row ∈ negRand, ∀ x ∈ row, 0 ≤ x ∧ x < N)
    (win : List Int)
    (hwin : win ∈
      (sample num_walks num_negatives W batch walks lens negRand).2.2)
    (x : Int) (hx : x ∈ win) : 0 ≤ x ∧ x < N := by
  simp only [sample, List.mem_flatMap] at hwin
  obtain ⟨row, hrow, hwinrow⟩ := hwin
  have hxrow : x ∈ row := mem_of_mem_unfoldWin hwinrow hx
  obtain ⟨s, r, hs, hrneg, hrw⟩ := mem_zipWith_cons hrow
  subst hrw
  rcases List.mem_cons.mp hxrow with hxs | hxr
  · subst hxs
    exact hb x (mem_repeatT (mem_repeatT hs))
  · exact hr r hrneg x hxr

theorem C10_neg_ids_in_range_witness :
    (∀ b ∈ ([0, 1] : List Int), 0 ≤ b ∧ b < 2) ∧
      (∀ row ∈ ([[1, 0], [0, 1]] : List (List Int)),
        ∀ x ∈ row, 0 ≤ x ∧ x < 2) ∧
      ([0, 1] : List Int) ∈
        (sample 1 1 2 [0, 1] [[0, 1, 0], [1, 0, 1]]
          [[(1 : Int), 1], [1, 1]] [[1, 0], [0, 1]]).2.2 ∧
      (0 : Int) ≤ 1 ∧ (1 : Int) < 2 :=
  ⟨by decide, by decide, by decide,
    C10_neg_ids_in_range 2 1 1 2 [0, 1] [[0, 1, 0], [1, 0, 1]]
      [[(1 : Int), 1], [1, 1]] [[1, 0], [0, 1]] (by decide) (by decide)
      [0, 1] (by decide) 1 (by decide)⟩

/-- The logistic function `torch.sigmoid` used by the loss and (as
`np.sigmoid`, modelled by the same function) by the dot-product
heuristic. -/
noncomputable def sigmoid (x : ℝ) : ℝ := 1 / (1 + Real.exp (-x))

/-- Dot product of two embedding rows, as computed by
`(w_start * w_rest).sum(dim=-1)` and `np.dot`. -/
def dot (v w : List ℝ) : ℝ := (List.zipWith (fun a b => a * b) v w).sum

/-- The `Tensor.mean()` reduction over a flattened list of scalars. -/
noncomputable def mean (xs : List ℝ) : ℝ := xs.sum / xs.length

/-- The per-pair target of the positive loss term,
`torch.div(self.c, self.c + pos_dists)` (modified_node2vec.py line 165). -/
noncomputable def targetSim (c d : ℝ) : ℝ := c / (c + d)

/-- The inference-time inverse mapping `D = init_c * (1 - d) / d` of the
dot-product heuristic (testing_functions.py line 208). -/
noncomputable def invDist (c s : ℝ) : ℝ := c * (1 - s) / s

/-- The attribute access `np.sigmoid` (testing_functions.py line 205),
modelled as fallible code: numpy defines no `sigmoid` and the repository
patches none in, so the lookup raises AttributeError on every call,
before any arithmetic happens. -/
def np_sigmoid (_x : ℝ) : Except String ℝ :=
  Except.error "AttributeError: module numpy has no attribute sigmoid"

/-- The heuristic `dot_heuristic` (testing_functions.py lines 204-209),
modelled as fallible code: it first evaluates
`np.sigmoid(np.dot(embedding[x], embedding[y]))`; only if that returns a
value does the zero-guard return 0 or the inverse mapping run.  Since
`np_sigmoid` always raises, every call propagates the AttributeError. -/
noncomputable def dot_heuristic (c : ℝ) (emb : Int → List ℝ)
    (x y : Int) : Except String ℝ :=
  match np_sigmoid (dot (emb x) (emb y)) with
  | Except.error e => Except.error e
  | Except.ok d => Except.ok (if d = 0 then 0 else invDist c d)

/-- Modelled from the spec: the intended heuristic of section 4.6, whose
`np.sigmoid` (missing from numpy) is read as the logistic function: a
similarity of exactly 0 returns 0, otherwise the inverse mapping is
applied. -/
noncomputable def dotHeuristicIntended (c : ℝ) (emb : Int → List ℝ)
    (x y : Int) : ℝ :=
  let d := sigmoid (dot (emb x) (emb y))
  if d = 0 then 0 else invDist c d

theorem sigmoid_pos (x : ℝ) : 0 < sigmoid x := by
  have h := Real.exp_pos (-x)
  have h1 : 0 < 1 + Real.exp (-x) := by linarith
  exact div_pos one_pos h1

theorem sigmoid_lt_one (x : ℝ) : sigmoid x < 1 := by
  have h := Real.exp_pos (-x)
  have h1 : 0 < 1 + Real.exp (-x) := by linarith
  rw [sigmoid, div_lt_one h1]
  linarith

/-- C6: decoder round trip: for `d ≥ 0` and `c > 0`, the inverse mapping
applied to the target similarity `c / (c + d)` recovers `d` exactly; in
particular `d = 0` gives similarity `1`, and the inverse of similarity `1`
is `0`. -/
theorem C6_decoder_round_trip (c d : ℝ) (hc : 0 < c) (hd : 0 ≤ d) :
    invDist c (targetSim c d) = d ∧ targetSim c 0 = 1 ∧
      invDist c 1 = 0 := by
  have hcd : 0 < c + d := by linarith
  refine ⟨?_, ?_, ?_⟩
  · rw [invDist, targetSim]
    field_simp
  · rw [targetSim, add_zero, div_self (ne_of_gt hc)]
  · rw [invDist]
    simp

theorem C6_decoder_round_trip_witness :
    (0 : ℝ) < 10 ∧ (0 : ℝ) ≤ 3 ∧ invDist 10 (targetSim 10 3) = 3 :=
  ⟨by norm_num, by norm_num,
    (C6_decoder_round_trip 10 3 (by norm_num) (by norm_num)).1⟩

/-- Support for C8's divergence: under the intended logistic semantics
the claimed property does hold — the similarity is never 0, so the
division is safe and the result is nonnegative whenever the decoder
constant is. -/
theorem dotHeuristicIntended_nonneg (c : ℝ) (emb : Int → List ℝ)
    (x y : Int) (hc : 0 ≤ c) :
    0 ≤ dotHeuristicIntended c emb x y ∧
      sigmoid (dot (emb x) (emb y)) ≠ 0 := by
  set s := sigmoid (dot (emb x) (emb y)) with hs
  have hpos : 0 < s := sigmoid_pos _
  have hlt : s < 1 := sigmoid_lt_one _
  have hne : s ≠ 0 := ne_of_gt hpos
  refine ⟨?_, hne⟩
  rw [dotHeuristicIntended]
  simp only [← hs, if_neg hne]
  rw [invDist]
  have h1 : 0 ≤ 1 - s := by linarith
  exact div_nonneg (mul_nonneg hc h1) (le_of_lt hpos)

/-- C8: code bug in `dot_heuristic`: `np.sigmoid` does not exist in numpy
and the repository defines none, so every call raises AttributeError
before the zero-guard or the division is reached — the heuristic never
returns any value at all, let alone a nonnegative one.  The claim holds
of the intended logistic semantics (`dotHeuristicIntended`), not of the
code. -/
theorem C8_heuristic_raises (c : ℝ) (emb : Int → List ℝ) (x y : Int) :
    dot_heuristic c emb x y =
        Except.error "AttributeError: module numpy has no attribute sigmoid" ∧
      ∀ v : ℝ, dot_heuristic c emb x y ≠ Except.ok v := by
  refine ⟨rfl, fun v h => ?_⟩
  simp [dot_heuristic, np_sigmoid] at h

/-- The all-zero single-coordinate embedding table, used as a concrete
instantiation in witnesses and counterexamples. -/
def zeroEmb : Int → List ℝ := fun _ => [0]

/-- The slice `pos_trace[:, 0]` / `neg_trace[:, 0]`: the start node of a window
row. -/
def rowStart (row : List Int) : Int := row.headD 0

/-- The slice `pos_trace[:, 1:]` / `neg_trace[:, 1:]`: the remaining nodes of a
window row. -/
def rowRest (row : List Int) : List Int := row.tail

/-- The positive per-pair squared errors of one window row, as in
`torch.pow(torch.sigmoid(pos_out) - torch.div(self.c, self.c + pos_dists), 2)`
(modified_node2vec.py line 165), with `pos_out` the dot products of the
start row against each rest row. -/
noncomputable def posPairTerms (emb : Int → List ℝ) (c : ℝ)
    (row : List Int) (drow : List ℝ) : List ℝ :=
  (List.zip (rowRest row) drow).map
    (fun p => (sigmoid (dot (emb (rowStart row)) (emb p.1)) -
      c / (c + p.2)) ^ 2)

/-- The negative per-pair terms of one window row, as in
`-torch.log(1 - torch.sigmoid(neg_out) + e)`
(modified_node2vec.py line 169). -/
noncomputable def negPairTerms (emb : Int → List ℝ) (e : ℝ)
    (row : List Int) : List ℝ :=
  (rowRest row).map
    (fun r => -Real.log (1 - sigmoid (dot (emb (rowStart row)) (emb r)) + e))

/-- Shallow embedding of `Node2vec.loss` (modified_node2vec.py lines 136-171): the mean of the
positive squared errors over all (window, pair) entries plus the mean of
the negative log terms over all (window, pair) entries, with
`e = 1e-15`.  All positive rows participate; the sentinel check on line
147 only prints the matching rows.  The embedding lookup is a total
function here, which is faithful for traces of in-range ids; the
fallible lookup of the real `nn.Embedding`, which rejects ids outside
the table (in particular the sentinel `-1`), is modelled by
`n2vLossChk` below. -/
noncomputable def n2vLoss (emb : Int → List ℝ) (c : ℝ)
    (posT : List (List Int)) (posD : List (List ℝ))
    (negT : List (List Int)) : ℝ :=
  mean ((List.zip posT posD).flatMap
      (fun pr => posPairTerms emb c pr.1 pr.2)) +
    mean (negT.flatMap (fun row => negPairTerms emb (1e-15) row))

/-- The diagnostic row selection of `Node2vec.loss` line 147,
`pos_trace[(pos_trace == -1).any(axis=1)]`: the rows that contain the DGL
dead-end padding sentinel `-1`. -/
def flaggedRows (t : List (List Int)) : List (List Int) :=
  t.filter (fun row => row.any (fun x => x == -1))

/-- The embedding lookup `self.embedding(ids)` as fallible code: the
table has rows `0 .. N` (`N` is the padding row, line 72), and
`F.embedding` raises IndexError for any id outside that range — in
particular for the DGL dead-end sentinel `-1`. -/
def embLookup (N : Int) (emb : Int → List ℝ) (i : Int) :
    Except String (List ℝ) :=
  if 0 ≤ i ∧ i ≤ N then Except.ok (emb i)
  else Except.error "IndexError: index out of range in self"

/-- Shallow embedding of `Node2vec.loss` as fallible code: every id in
the positive and negative traces goes through the embedding lookup
before any arithmetic, so a single out-of-range id — e.g. the dead-end
sentinel `-1` — makes the whole call raise IndexError; on traces of
valid ids the call returns the value of `n2vLoss`.  (In the real code
the diagnostic print of line 147 still happens before the raise.) -/
noncomputable def n2vLossChk (N : Int) (emb : Int → List ℝ) (c : ℝ)
    (posT : List (List Int)) (posD : List (List ℝ))
    (negT : List (List Int)) : Except String ℝ :=
  if (posT ++ negT).all (fun row => row.all
      (fun i => (embLookup N emb i).isOk)) then
    Except.ok (n2vLoss emb c posT posD negT)
  else Except.error "IndexError: index out of range in self"

/-- The spec's per-pair similarity: the sigmoid of the dot product of the
two nodes' embedding rows. -/
noncomputable def similarity (emb : Int → List ℝ) (u v : Int) : ℝ :=
  sigmoid (dot (emb u) (emb v))

/-- The spec's positive loss term: mean squared error between the per-pair
similarity and the target `c / (c + d)`, averaged over all pairs. -/
noncomputable def specPosTerm (emb : Int → List ℝ) (c : ℝ)
    (posT : List (List Int)) (posD : List (List ℝ)) : ℝ :=
  mean ((List.zip posT posD).flatMap
    (fun pr => (List.zip (rowRest pr.1) pr.2).map
      (fun p => (similarity emb (rowStart pr.1) p.1 - targetSim c p.2) ^ 2)))

/-- The spec's negative loss term with the similarity applied once:
`-log(1 - s + ε)` for per-pair similarity `s`, averaged over all pairs. -/
noncomputable def specNegTerm (emb : Int → List ℝ)
    (negT : List (List Int)) : ℝ :=
  mean (negT.flatMap (fun row => (rowRest row).map
    (fun r => -Real.log (1 - similarity emb (rowStart row) r + 1e-15))))

/-- The claim's negative term read literally: since it defines the
similarity as the sigmoid of the dot product and then writes
`-log(1 - sigmoid(similarity) + ε)`, the sigmoid is applied twice. -/
noncomputable def specNegTermLit (emb : Int → List ℝ)
    (negT : List (List Int)) : ℝ :=
  mean (negT.flatMap (fun row => (rowRest row).map
    (fun r => -Real.log (1 - sigmoid (similarity emb (rowStart row) r) +
      1e-15))))

theorem sigmoid_zero : sigmoid 0 = 1 / 2 := by
  rw [sigmoid, neg_zero, Real.exp_zero]
  norm_num

theorem dot_zeroEmb (a b : Int) : dot (zeroEmb a) (zeroEmb b) = 0 := by
  simp [dot, zeroEmb]

theorem similarity_zeroEmb (u v : Int) : similarity zeroEmb u v = 1 / 2 := by
  rw [similarity, dot_zeroEmb, sigmoid_zero]

theorem loss_eq_terms (emb : Int → List ℝ) (c : ℝ)
    (posT : List (List Int)) (posD : List (List ℝ))
    (negT : List (List Int)) :
    n2vLoss emb c posT posD negT =
      specPosTerm emb c posT posD + specNegTerm emb negT := rfl

/-- C4 (amended): the per-pair similarity is the sigmoid of the dot
product; the negative term is `-log(1 - s + ε)` with the similarity `s`
applied once (not `-log(1 - sigmoid(s) + ε)`) and `ε = 1e-15`; and the
returned loss is the unweighted sum of the positive and negative terms. -/
theorem C4_loss_decomposition (emb : Int → List ℝ) (c : ℝ)
    (posT : List (List Int)) (posD : List (List ℝ))
    (negT : List (List Int)) :
    n2vLoss emb c posT posD negT =
      specPosTerm emb c posT posD + specNegTerm emb negT :=
  loss_eq_terms emb c posT posD negT

theorem specNegTerm_zeroEmb_single :
    specNegTerm zeroEmb [[0, 1]] = -Real.log (1 / 2 + 1e-15) := by
  simp [specNegTerm, rowStart, rowRest, mean, similarity_zeroEmb]
  norm_num

theorem specNegTermLit_zeroEmb_single :
    specNegTermLit zeroEmb [[0, 1]] =
      -Real.log (1 - sigmoid (1 / 2) + 1e-15) := by
  simp [specNegTermLit, rowStart, rowRest, mean, similarity_zeroEmb]

theorem sigmoid_half_args_differ :
    -Real.log (1 / 2 + 1e-15) ≠ -Real.log (1 - sigmoid (1 / 2) + 1e-15) := by
  have htpos : (0 : ℝ) < Real.exp (-(1 / 2)) := Real.exp_pos _
  have ht1 : Real.exp (-(1 / 2) : ℝ) < 1 := by
    have h0 : Real.exp (-(1 / 2) : ℝ) < Real.exp 0 :=
      Real.exp_lt_exp.mpr (by norm_num)
    rwa [Real.exp_zero] at h0
  have h1t : (0 : ℝ) < 1 + Real.exp (-(1 / 2)) := by linarith
  have hs : sigmoid (1 / 2) = 1 / (1 + Real.exp (-(1 / 2))) := rfl
  have hhalf : (1 : ℝ) / 2 < 1 / (1 + Real.exp (-(1 / 2))) := by
    rw [div_lt_div_iff₀ (by norm_num) h1t]
    linarith
  have hlt1 : (1 : ℝ) / (1 + Real.exp (-(1 / 2))) < 1 := by
    rw [div_lt_one h1t]
    linarith
  have harg2pos : (0 : ℝ) < 1 - sigmoid (1 / 2) + 1e-15 := by
    rw [hs]
    have : (0 : ℝ) < (1e-15 : ℝ) := by norm_num
    linarith
  have hargs : (1 : ℝ) - sigmoid (1 / 2) + 1e-15 < 1 / 2 + 1e-15 := by
    rw [hs]
    linarith
  have hlog : Real.log (1 - sigmoid (1 / 2) + 1e-15) <
      Real.log (1 / 2 + 1e-15) := Real.log_lt_log harg2pos hargs
  intro h
  have h2 : Real.log (1 / 2 + 1e-15) =
      Real.log (1 - sigmoid (1 / 2) + 1e-15) := by
    have := neg_injective h
    exact this
  rw [h2] at hlog
  exact lt_irrefl _ hlog

/-- C4 counterexample: with a single all-zero embedding coordinate, the
loss returned by the code differs from the claim's literal formula, in
which the negative term applies the sigmoid to the already-sigmoided
similarity. -/
theorem C4_neg_term_counterexample :
    n2vLoss zeroEmb 10 [[0, 1]] [[(0 : ℝ)]] [[0, 1]] ≠
      specPosTerm zeroEmb 10 [[0, 1]] [[(0 : ℝ)]] +
        specNegTermLit zeroEmb [[0, 1]] := by
  rw [loss_eq_terms]
  intro h
  have h2 := add_left_cancel h
  rw [specNegTerm_zeroEmb_single, specNegTermLit_zeroEmb_single] at h2
  exact sigmoid_half_args_differ h2

/-- C2: code bug in `Node2vec.loss`: a positive window from a dead-end
walk (DGL pads stalled walks with the sentinel `-1`) is identified by the
diagnostic selection of line 147 — which only prints it — but is not
excluded: the embedding lookups that follow reject the sentinel id, so
the call raises IndexError instead of returning a loss with the affected
window excluded and the run continuing, as the spec requires.  On
sentinel-free traces the loss is returned normally. -/
theorem C2_sentinel_crashes_loss :
    flaggedRows [[0, 1], [-1, -1]] = [[-1, -1]] ∧
      n2vLossChk 2 zeroEmb 10 [[0, 1], [-1, -1]] [[(0 : ℝ)], [5]]
          [[0, 1]] =
        Except.error "IndexError: index out of range in self" ∧
      n2vLossChk 2 zeroEmb 10 [[0, 1]] [[(0 : ℝ)]] [[0, 1]] =
        Except.ok (n2vLoss zeroEmb 10 [[0, 1]] [[(0 : ℝ)]] [[0, 1]]) :=
  ⟨by decide, rfl, rfl⟩

/-- Prefix sums starting from `a`. -/
def cumSumFrom [Add α] (a : α) : List α → List α
  | [] => []
  | x :: xs => (a + x) :: cumSumFrom (a + x) xs

/-- Modelled from the spec's words for the claim's reading of the
distance windows: each rolled distance window replaced by its running
(cumulative) sums, so entry `i` would be the cumulative walk distance from
the window's start node to `rest[i]`. -/
def specCumulDists [AddMonoid α] (W : Nat) (lens : List (List α)) :
    List (List α) :=
  lens.flatMap (fun d => (unfoldWin d (W - 1)).map (cumSumFrom 0))

/-- C1 counterexample: a single walk `0 → 1 → 2` with both edge lengths 1
and `window_size = 3`.  `sample` returns the per-step distance window
`[1, 1]`, while the claim's cumulative reading requires `[1, 2]`. -/
theorem C1_counterexample :
    (sample 1 1 3 [0] [[0, 1, 2]] [[(1 : Int), 1]] [[0, 0]]).2.1 =
        [[1, 1]] ∧
      specCumulDists 3 [[(1 : Int), 1]] = [[1, 2]] ∧
      ([[(1 : Int), 1]] : List (List Int)) ≠ [[1, 2]] := by
  refine ⟨by decide, by decide, by decide⟩

/-- C1 (amended): each positive distance window has size `W-1` and holds
the per-step edge lengths at the matching offset — entry `k` of window `j`
is `lens[j+k]`, the length of the single edge between window nodes `k` and
`k+1`, not the cumulative distance from the window's start — the node and
distance rollings yield the same number of windows, and the loss target
paired with `rest[i]` is `c / (c + dists[i])` for that per-step length. -/
theorem C1_dist_windows (t : List Int) (d : List Int) (W j k : Nat)
    (emb : Int → List ℝ) (c : ℝ) (row : List Int) (drow : List ℝ)
    (hlen : d.length + 1 = t.length) (hW : 1 ≤ W) (hWt : W ≤ t.length)
    (hj : j + W ≤ t.length) (hk : k < W - 1) :
    (unfoldWin t W).length = (unfoldWin d (W - 1)).length ∧
      ((unfoldWin d (W - 1)).getD j []).length = W - 1 ∧
      ((unfoldWin d (W - 1)).getD j []).getD k 0 = d.getD (j + k) 0 ∧
      posPairTerms emb c row drow =
        (List.zip (rowRest row) drow).map
          (fun p =>
            (similarity emb (rowStart row) p.1 - targetSim c p.2) ^ 2) := by
  have hjlt : j < d.length + 1 - (W - 1) := by omega
  have hwin : (unfoldWin d (W - 1)).getD j [] = (d.drop j).take (W - 1) := by
    rw [unfoldWin, List.getD_eq_getElem?_getD, List.getElem?_map]
    have hr : (List.range (d.length + 1 - (W - 1)))[j]? = some j :=
      List.getElem?_range hjlt
    rw [hr]
    rfl
  refine ⟨?_, ?_, ?_, rfl⟩
  · rw [length_unfoldWin, length_unfoldWin]
    omega
  · rw [hwin, List.length_take, List.length_drop]
    omega
  · rw [hwin, List.getD_eq_getElem?_getD, List.getD_eq_getElem?_getD]
    rw [List.getElem?_take, if_pos hk, List.getElem?_drop]

theorem C1_dist_windows_witness :
    ([(1 : Int), 1] : List Int).length + 1 = ([0, 1, 2] : List Int).length ∧
      1 ≤ 3 ∧ 3 ≤ ([0, 1, 2] : List Int).length ∧
      0 + 3 ≤ ([0, 1, 2] : List Int).length ∧ 1 < 3 - 1 ∧
      ((unfoldWin ([(1 : Int), 1] : List Int) (3 - 1)).getD 0 []).getD 1 0 =
        ([(1 : Int), 1] : List Int).getD (0 + 1) 0 :=
  ⟨by decide, by decide, by decide, by decide, by decide,
    (C1_dist_windows [0, 1, 2] [(1 : Int), 1] 3 0 1 zeroEmb 10 [0, 1]
      [(0 : ℝ)] (by decide) (by decide) (by decide) (by decide)
      (by decide)).2.2.1⟩

/-- The evaluation-probe condition of `Node2vecModel.train`
(modified_node2vec.py lines 307-316), checked once per loop iteration
`i` (the 0-based epoch index): the code tests `self.eval_steps > 0` and
then `epochs % self.eval_steps == 0`, where `epochs` is the *total* epoch
count — the current epoch `i` is not consulted. -/
def evalCondition (epochs : Nat) (evalSteps : Int) (_i : Nat) : Bool :=
  decide (0 < evalSteps) && decide ((epochs : Int) % evalSteps = 0)

/-- Epoch indices in which the held-out probe runs, per the code. -/
def epochsWithEval (epochs : Nat) (evalSteps : Int) : List Nat :=
  (List.range epochs).filter (fun i => evalCondition epochs evalSteps i)

/-- Modelled from the spec: the probe schedule the spec and the claim
describe — the probe runs exactly in the epochs whose (1-based, as
printed) number is a multiple of the configured interval. -/
def specEpochsWithEval (epochs : Nat) (evalSteps : Int) : List Nat :=
  (List.range epochs).filter
    (fun i => decide (0 < evalSteps) &&
      decide (((i : Int) + 1) % evalSteps = 0))

/-- C3: code bug in `Node2vecModel.train`: the probe condition tests the
total epoch count, not the current epoch.  With `epochs = 3` and
`eval_steps = 2` the probe never runs although epoch 2 matches the
interval; with `epochs = 4` it runs in every epoch, including epochs 1
and 3 which do not match the interval. -/
theorem C3_eval_schedule_bug :
    epochsWithEval 3 2 = [] ∧ specEpochsWithEval 3 2 = [1] ∧
      epochsWithEval 4 2 = [0, 1, 2, 3] ∧
      specEpochsWithEval 4 2 = [1, 3] := by decide

/-- Shallow embedding of the construction-time behavior of
`Node2vec.__init__` (modified_node2vec.py lines 52-78): the explicit
check is `assert walk_length >= window_size` (line 56), which fires
first; creating `nn.Embedding(N + 1, embedding_dim)` on line 72 then
raises for a negative dimension (negative tensor sizes are rejected),
while a zero dimension is accepted.  No decay-mode option exists
(`train` fixes the decay factor at `0.995`). -/
def node2vecInit (embedding_dim walk_length window_size : Int) :
    Except String (Int × Int × Int) :=
  if walk_length < window_size then
    Except.error "AssertionError: walk_length >= window_size"
  else if embedding_dim < 0 then
    Except.error "RuntimeError: negative tensor dimension"
  else Except.ok (embedding_dim, walk_length, window_size)

/-- C9 counterexample: a zero — hence non-positive — embedding dimension
with valid walk/window sizes constructs successfully, so an invalid
configuration does not always fail at construction. -/
theorem C9_counterexample :
    (0 : Int) ≤ 0 ∧ node2vecInit 0 5 5 = Except.ok (0, 5, 5) :=
  ⟨by decide, rfl⟩

/-- C9 (amended): construction fails exactly when
`walk_length < window_size` (the assert) or the embedding dimension is
negative (`nn.Embedding` rejects negative tensor sizes); a zero embedding
dimension is accepted, and no decay-mode option exists to be
validated. -/
theorem C9_construction_checks (d l w : Int) :
    (node2vecInit d l w).isOk = true ↔ (w ≤ l ∧ 0 ≤ d) := by
  by_cases h1 : l < w
  · simp only [node2vecInit, if_pos h1, Except.isOk, Except.toBool]
    constructor
    · intro h
      exact absurd h (by decide)
    · intro h
      omega
  · by_cases h2 : d < 0
    · simp only [node2vecInit, if_neg h1, if_pos h2, Except.isOk,
        Except.toBool]
      constructor
      · intro h
        exact absurd h (by decide)
      · intro h
        omega
    · simp only [node2vecInit, if_neg h1, if_neg h2, Except.isOk,
        Except.toBool]
      constructor
      · intro h
        omega
      · intro h
        trivial

end ANEDA
